import Mathlib

/-!
Verification of the outline parser of the Agent_With_Progress repository.

The repository contains several near-duplicate Express servers; the only
non-trivial logic is the function `parseFileContent`, which turns a text
document into a list of subjects, each holding a list of tasks together
with completion counters.  Two behavioural variants exist:

* `src/index.js` (lines 58-108): a header line whose name trims to empty
  does NOT create a subject (guard `if (subjectName)`);
* `src/unnamed/part_000` (and the second server variant concatenated into
  `src/index.js`): a header line always creates a subject, even with an
  empty name.

Both variants are embedded below: `parseFileContent` follows
`src/index.js`, `parseFileContentU` follows `src/unnamed/part_000`.

JavaScript strings are modelled as `List Char`; `String.split`, `trim`,
`startsWith`, `substring` and the task regular expression are embedded
character by character, following ECMAScript semantics for the whitespace
class and for `.` not matching line terminators.
-/

namespace AWP

/-- The set of characters matched by the ECMAScript `\s` class and removed
by `String.prototype.trim`: WhiteSpace (tab, vertical tab, form feed,
space, no-break space, zero-width no-break space, Unicode space
separators) together with the line terminators. -/
def isJsSpace (c : Char) : Bool :=
  c = ' ' || c = '\t' || c = '\n' || c = '\r' || c = '\x0b' || c = '\x0c' ||
  c = '\u00A0' || c = '\u1680' || ('\u2000' ≤ c && c ≤ '\u200A') ||
  c = '\u2028' || c = '\u2029' || c = '\u202F' || c = '\u205F' ||
  c = '\u3000' || c = '\uFEFF'

/-- ECMAScript line terminators, which `.` in a regular expression without
the `s` flag never matches. -/
def isLineTerminator (c : Char) : Bool :=
  c = '\n' || c = '\r' || c = '\u2028' || c = '\u2029'

/-- `String.prototype.trim`: strip `isJsSpace` characters from both ends. -/
def jsTrimL (s : List Char) : List Char :=
  ((s.dropWhile isJsSpace).reverse.dropWhile isJsSpace).reverse

/-- `content.split('\n')` (src/index.js line 60): split on every line feed;
an empty string yields one empty line, a trailing line feed yields a final
empty line. -/
def splitLines : List Char → List (List Char)
  | [] => [[]]
  | '\n' :: rest => [] :: splitLines rest
  | c :: rest =>
    match splitLines rest with
    | [] => [[c]]
    | l :: ls => (c :: l) :: ls

/-- `line.startsWith('##')` (src/index.js line 67). -/
def isHeaderLine : List Char → Bool
  | '#' :: '#' :: _ => true
  | _ => false

/-- One task line: `text` with the checkbox markup stripped, and the
completion flag (src/index.js lines 92-95). -/
structure Task where
  text : String
  completed : Bool
deriving Repr, DecidableEq

/-- One subject record (src/index.js lines 71-76). -/
structure Subject where
  name : String
  tasks : List Task
  completed : Nat
  total : Nat
deriving Repr, DecidableEq

/-- The matcher of `taskRegex = /^-\s*\[(x| )\]\s*(.*)$/i`
(src/index.js line 81; called `markdownTaskRegex` in
src/unnamed/part_000 line 82) combined with the extraction
`match[1].toLowerCase() === 'x'` and `match[2].trim()`
(src/index.js lines 88-89).  The pattern requires the leading hyphen,
then any run of `\s`, a bracketed marker holding `x`, `X` (the `i` flag)
or a single space, any run of `\s`, and then `(.*)$`, which succeeds
exactly when no line terminator remains after the whitespace run.
Returns `some (completed, text)` on a match, `none` otherwise. -/
def taskRegexMatch (line : List Char) : Option (Bool × List Char) :=
  match line with
  | c :: rest =>
    if c = '-' then
      match rest.dropWhile isJsSpace with
      | '[' :: m :: ']' :: rest2 =>
        if m = 'x' || m = 'X' || m = ' ' then
          let body := rest2.dropWhile isJsSpace
          if body.any isLineTerminator then none
          else some ((m = 'x' || m = 'X'), jsTrimL body)
        else none
      | _ => none
    else none
  | [] => none

/-- The task built from a trimmed non-empty line under a current subject
(src/index.js lines 84-95): the regex result when it matches, otherwise
the whole trimmed line with `completed = false`. -/
def mkTask (line : List Char) : Task :=
  match taskRegexMatch line with
  | some (c, t) => ⟨String.mk t, c⟩
  | none => ⟨String.mk line, false⟩

/-- `currentSubject.tasks.push(task); currentSubject.total++;
if (isCompleted) currentSubject.completed++;`
(src/index.js lines 92-99). -/
def addTask (s : Subject) (t : Task) : Subject :=
  { name := s.name
    tasks := s.tasks ++ [t]
    completed := s.completed + (if t.completed then 1 else 0)
    total := s.total + 1 }

/-- Scan state of the single forward pass: the subjects already pushed and
no longer current, plus the current subject.  In the JavaScript source the
current subject is pushed into `result` at creation and then mutated in
place; here the pushed-and-final part and the still-mutable cursor are kept
apart, and the result read off as `done ++ cur.toList`. -/
structure PState where
  done : List Subject
  cur : Option Subject
deriving Repr, DecidableEq

/-- The subjects the scan state denotes, in document order. -/
def resultOf (st : PState) : List Subject :=
  st.done ++ st.cur.toList

/-- One iteration of the line loop of `parseFileContent` in `src/index.js`
(lines 64-101): trim the line; a `##` header with non-empty trimmed name
starts a new current subject (an empty name leaves the state untouched);
otherwise a non-empty line under a current subject appends a task; anything
else is discarded. -/
def processLine (st : PState) (rawLine : List Char) : PState :=
  if isHeaderLine (jsTrimL rawLine) then
    if jsTrimL ((jsTrimL rawLine).drop 2) = [] then st
    else
      ⟨st.done ++ st.cur.toList,
       some ⟨String.mk (jsTrimL ((jsTrimL rawLine).drop 2)), [], 0, 0⟩⟩
  else if jsTrimL rawLine = [] then st
  else
    match st.cur with
    | none => st
    | some subj => ⟨st.done, some (addTask subj (mkTask (jsTrimL rawLine)))⟩

/-- `parseFileContent` of `src/index.js` (lines 58-108). -/
def parseFileContent (content : String) : List Subject :=
  resultOf ((splitLines content.data).foldl processLine ⟨[], none⟩)

/-- One iteration of the line loop of `parseFileContent` in
`src/unnamed/part_000` (lines 67-103): identical to the `src/index.js`
variant except that a header line creates a subject unconditionally, even
when its name trims to empty. -/
def processLineU (st : PState) (rawLine : List Char) : PState :=
  if isHeaderLine (jsTrimL rawLine) then
    ⟨st.done ++ st.cur.toList,
     some ⟨String.mk (jsTrimL ((jsTrimL rawLine).drop 2)), [], 0, 0⟩⟩
  else if jsTrimL rawLine = [] then st
  else
    match st.cur with
    | none => st
    | some subj => ⟨st.done, some (addTask subj (mkTask (jsTrimL rawLine)))⟩

/-- `parseFileContent` of `src/unnamed/part_000` (lines 61-110). -/
def parseFileContentU (content : String) : List Subject :=
  resultOf ((splitLines content.data).foldl processLineU ⟨[], none⟩)

/-- The sole error kind of the parser contract: raised when the input is
not a valid string (a null or undefined input has no `split` method, so
the scan throws a TypeError, which the `catch` block rethrows,
src/index.js lines 104-107). -/
inductive ParseError where
  | typeError : ParseError
deriving Repr, DecidableEq

/-- `parseFileContent` seen from the JavaScript call boundary: the input is
either a valid string (`some`) or a null/undefined value (`none`); only the
latter makes the function throw. -/
def parseFileContentJS (input : Option String) : Except ParseError (List Subject) :=
  match input with
  | none => Except.error ParseError.typeError
  | some s => Except.ok (parseFileContent s)

/-- The counter invariant of a subject record: `completed` never exceeds
`total`, `total` is the number of tasks, and `completed` is the number of
completed tasks. -/
def wfSubject (s : Subject) : Prop :=
  s.completed ≤ s.total ∧ s.total = s.tasks.length ∧
  s.completed = (s.tasks.filter (fun t => t.completed)).length

/-- The counter invariant, extended to every subject a scan state denotes. -/
def stateWf (st : PState) : Prop :=
  ∀ s ∈ resultOf st, wfSubject s

/- Helper lemmas describing one loop iteration in each of the four cases
of the line dispatch. -/

lemma processLine_header (st : PState) (l : List Char)
    (hh : isHeaderLine (jsTrimL l) = true)
    (hn : jsTrimL ((jsTrimL l).drop 2) ≠ []) :
    processLine st l =
      ⟨st.done ++ st.cur.toList,
       some ⟨String.mk (jsTrimL ((jsTrimL l).drop 2)), [], 0, 0⟩⟩ := by
  simp [processLine, hh, hn]

lemma processLine_header_empty (st : PState) (l : List Char)
    (hh : isHeaderLine (jsTrimL l) = true)
    (hn : jsTrimL ((jsTrimL l).drop 2) = []) :
    processLine st l = st := by
  simp [processLine, hh, hn]

lemma processLine_blank (st : PState) (l : List Char)
    (hb : jsTrimL l = []) :
    processLine st l = st := by
  simp [processLine, hb, isHeaderLine]

lemma processLine_orphan (st : PState) (l : List Char)
    (hc : st.cur = none)
    (hh : isHeaderLine (jsTrimL l) = false) :
    processLine st l = st := by
  by_cases hb : jsTrimL l = []
  · simp [processLine, hh, hb, isHeaderLine]
  · simp [processLine, hh, hb, hc]

lemma processLine_task (st : PState) (subj : Subject) (l : List Char)
    (hc : st.cur = some subj)
    (hh : isHeaderLine (jsTrimL l) = false)
    (hb : jsTrimL l ≠ []) :
    processLine st l = ⟨st.done, some (addTask subj (mkTask (jsTrimL l)))⟩ := by
  simp [processLine, hh, hb, hc]

lemma processLineU_header (st : PState) (l : List Char)
    (hh : isHeaderLine (jsTrimL l) = true) :
    processLineU st l =
      ⟨st.done ++ st.cur.toList,
       some ⟨String.mk (jsTrimL ((jsTrimL l).drop 2)), [], 0, 0⟩⟩ := by
  simp [processLineU, hh]

lemma processLineU_blank (st : PState) (l : List Char)
    (hb : jsTrimL l = []) :
    processLineU st l = st := by
  simp [processLineU, hb, isHeaderLine]

lemma processLineU_orphan (st : PState) (l : List Char)
    (hc : st.cur = none)
    (hh : isHeaderLine (jsTrimL l) = false) :
    processLineU st l = st := by
  by_cases hb : jsTrimL l = []
  · simp [processLineU, hh, hb, isHeaderLine]
  · simp [processLineU, hh, hb, hc]

lemma processLineU_task (st : PState) (subj : Subject) (l : List Char)
    (hc : st.cur = some subj)
    (hh : isHeaderLine (jsTrimL l) = false)
    (hb : jsTrimL l ≠ []) :
    processLineU st l = ⟨st.done, some (addTask subj (mkTask (jsTrimL l)))⟩ := by
  simp [processLineU, hh, hb, hc]

lemma taskRegexMatch_nonDash (l : List Char) (h : l.head? ≠ some '-') :
    taskRegexMatch l = none := by
  cases l with
  | nil => rfl
  | cons c cs =>
    have hc : ¬ c = '-' := by simpa using h
    simp [taskRegexMatch, hc]

lemma mkTask_of_none (l : List Char) (h : taskRegexMatch l = none) :
    mkTask l = ⟨String.mk l, false⟩ := by
  simp [mkTask, h]

lemma wfSubject_new (n : String) : wfSubject ⟨n, [], 0, 0⟩ := by
  simp [wfSubject]

lemma wfSubject_addTask (s : Subject) (t : Task) (h : wfSubject s) :
    wfSubject (addTask s t) := by
  obtain ⟨h1, h2, h3⟩ := h
  refine ⟨?_, ?_, ?_⟩
  · simp only [addTask]
    split <;> omega
  · simp [addTask, h2]
  · simp only [addTask, List.filter_append, List.length_append, h3]
    cases ht : t.completed <;> simp [List.filter, ht]

lemma processLine_wf (st : PState) (l : List Char) (h : stateWf st) :
    stateWf (processLine st l) := by
  by_cases hh : isHeaderLine (jsTrimL l)
  · by_cases hn : jsTrimL ((jsTrimL l).drop 2) = []
    · rw [processLine_header_empty st l hh hn]; exact h
    · rw [processLine_header st l hh hn]
      intro s hs
      simp only [resultOf, Option.toList_some, List.mem_append, List.mem_singleton] at hs
      rcases hs with hs | rfl
      · exact h s (by simpa [resultOf] using hs)
      · exact wfSubject_new _
  · by_cases hb : jsTrimL l = []
    · rw [processLine_blank st l hb]; exact h
    · cases hc : st.cur with
      | none => rw [processLine_orphan st l hc (by simpa using hh)]; exact h
      | some subj =>
        rw [processLine_task st subj l hc (by simpa using hh) hb]
        intro s hs
        simp only [resultOf, Option.toList_some, List.mem_append, List.mem_singleton] at hs
        rcases hs with hs | rfl
        · exact h s (by simp [resultOf, hc, hs])
        · exact wfSubject_addTask _ _ (h subj (by simp [resultOf, hc]))

lemma processLineU_wf (st : PState) (l : List Char) (h : stateWf st) :
    stateWf (processLineU st l) := by
  by_cases hh : isHeaderLine (jsTrimL l)
  · rw [processLineU_header st l hh]
    intro s hs
    simp only [resultOf, Option.toList_some, List.mem_append, List.mem_singleton] at hs
    rcases hs with hs | rfl
    · exact h s (by simpa [resultOf] using hs)
    · exact wfSubject_new _
  · by_cases hb : jsTrimL l = []
    · rw [processLineU_blank st l hb]; exact h
    · cases hc : st.cur with
      | none => rw [processLineU_orphan st l hc (by simpa using hh)]; exact h
      | some subj =>
        rw [processLineU_task st subj l hc (by simpa using hh) hb]
        intro s hs
        simp only [resultOf, Option.toList_some, List.mem_append, List.mem_singleton] at hs
        rcases hs with hs | rfl
        · exact h s (by simp [resultOf, hc, hs])
        · exact wfSubject_addTask _ _ (h subj (by simp [resultOf, hc]))

lemma foldl_processLine_wf (lines : List (List Char)) (st : PState)
    (h : stateWf st) : stateWf (lines.foldl processLine st) := by
  induction lines generalizing st with
  | nil => exact h
  | cons l ls ih => exact ih _ (processLine_wf _ _ h)

lemma foldl_processLineU_wf (lines : List (List Char)) (st : PState)
    (h : stateWf st) : stateWf (lines.foldl processLineU st) := by
  induction lines generalizing st with
  | nil => exact h
  | cons l ls ih => exact ih _ (processLineU_wf _ _ h)

lemma stateWf_init : stateWf ⟨[], none⟩ := by
  intro s hs
  simp [resultOf] at hs

/- Claim theorems. -/

/-- Claim C1: every Subject produced by either variant of
parse/parseFileContent, on any string input, satisfies
completed <= total, total = length of the task list, and completed =
number of tasks whose completed flag is true. -/
theorem c1_subject_counters_invariant (content : String) (s : Subject)
    (h : s ∈ parseFileContent content ∨ s ∈ parseFileContentU content) :
    s.completed ≤ s.total ∧ s.total = s.tasks.length ∧
    s.completed = (s.tasks.filter (fun t => t.completed)).length := by
  rcases h with h | h
  · have := foldl_processLine_wf (splitLines content.data) ⟨[], none⟩ stateWf_init
    exact this s h
  · have := foldl_processLineU_wf (splitLines content.data) ⟨[], none⟩ stateWf_init
    exact this s h

theorem c1_subject_counters_invariant_witness :
    ((⟨"Math", [⟨"algebra", true⟩], 1, 1⟩ : Subject) ∈
        parseFileContent "## Math\n- [x] algebra") ∧
    ((⟨"Math", [⟨"algebra", true⟩], 1, 1⟩ : Subject).completed ≤
        (⟨"Math", [⟨"algebra", true⟩], 1, 1⟩ : Subject).total ∧
     (⟨"Math", [⟨"algebra", true⟩], 1, 1⟩ : Subject).total =
        (⟨"Math", [⟨"algebra", true⟩], 1, 1⟩ : Subject).tasks.length ∧
     (⟨"Math", [⟨"algebra", true⟩], 1, 1⟩ : Subject).completed =
        ((⟨"Math", [⟨"algebra", true⟩], 1, 1⟩ : Subject).tasks.filter
          (fun t => t.completed)).length) :=
  ⟨by decide,
   c1_subject_counters_invariant "## Math\n- [x] algebra"
     ⟨"Math", [⟨"algebra", true⟩], 1, 1⟩ (Or.inl (by decide))⟩

/-- Claim C2: parse applied to the exact input
"## Math\n- [x] algebra\n- [ ] geometry\n" returns one Subject named
"Math" with tasks algebra (completed) and geometry (not completed), in
that order, with completed = 1 and total = 2. -/
theorem c2_example_document :
    parseFileContent "## Math\n- [x] algebra\n- [ ] geometry\n" =
      [⟨"Math", [⟨"algebra", true⟩, ⟨"geometry", false⟩], 1, 2⟩] := by
  decide

/-- Claim C3: on every valid string input the parser returns normally; the
sole error kind, ParseError, arises exactly when the input is not a valid
string (modelled as the `none` input at the call boundary). -/
theorem c3_returns_normally_on_strings (input : Option String) :
    (parseFileContentJS input).isOk = input.isSome := by
  cases input <;> rfl

/-- Claim C4, counterexample: the checkbox pattern does NOT match a
bracketed marker without the leading hyphen; "[x] algebra" under a subject
becomes a plain uncompleted task keeping the brackets in its text, not the
completed task "algebra" the claim requires. -/
theorem c4_counterexample_hyphen_not_optional :
    taskRegexMatch "[x] algebra".data = none ∧
    parseFileContent "## S\n[x] algebra" =
      [⟨"S", [⟨"[x] algebra", false⟩], 0, 1⟩] ∧
    parseFileContent "## S\n[x] algebra" ≠
      [⟨"S", [⟨"algebra", true⟩], 1, 1⟩] :=
  ⟨by decide, by decide, by decide⟩

/-- Claim C4, amended: the leading hyphen of the checkbox task pattern is
required, not optional.  A trimmed non-empty non-header line under a
current subject that does not start with a hyphen never matches the
pattern and is appended verbatim as a task with completed = false. -/
theorem c4_amended_hyphen_required (st : PState) (subj : Subject)
    (l : List Char)
    (hc : st.cur = some subj)
    (hh : isHeaderLine (jsTrimL l) = false)
    (hb : jsTrimL l ≠ [])
    (hd : (jsTrimL l).head? ≠ some '-') :
    taskRegexMatch (jsTrimL l) = none ∧
    processLine st l =
      ⟨st.done, some (addTask subj ⟨String.mk (jsTrimL l), false⟩)⟩ := by
  have hm := taskRegexMatch_nonDash _ hd
  exact ⟨hm, by rw [processLine_task st subj l hc hh hb, mkTask_of_none _ hm]⟩

theorem c4_amended_hyphen_required_witness :
    taskRegexMatch (jsTrimL "[x] algebra".data) = none ∧
    processLine ⟨[], some ⟨"S", [], 0, 0⟩⟩ "[x] algebra".data =
      ⟨[], some ⟨"S", [⟨"[x] algebra", false⟩], 0, 1⟩⟩ := by
  have h := c4_amended_hyphen_required ⟨[], some ⟨"S", [], 0, 0⟩⟩
    ⟨"S", [], 0, 0⟩ "[x] algebra".data rfl (by decide) (by decide) (by decide)
  exact ⟨h.1, by rw [h.2]; decide⟩

/-- Claim C5: in the variant of src/unnamed/part_000, every line whose
trimmed form begins with the marker `##` creates a new Subject whose name
is the trimmed remainder after those two characters, with an empty task
list and zero counters, appends it to the result sequence, and makes it
the current subject — with no exception for an empty name. -/
theorem c5_header_always_creates_subject (st : PState) (l : List Char)
    (hh : isHeaderLine (jsTrimL l) = true) :
    processLineU st l =
      ⟨st.done ++ st.cur.toList,
       some ⟨String.mk (jsTrimL ((jsTrimL l).drop 2)), [], 0, 0⟩⟩ ∧
    resultOf (processLineU st l) =
      resultOf st ++ [⟨String.mk (jsTrimL ((jsTrimL l).drop 2)), [], 0, 0⟩] := by
  refine ⟨processLineU_header st l hh, ?_⟩
  rw [processLineU_header st l hh]
  simp [resultOf]

theorem c5_header_always_creates_subject_witness :
    processLineU ⟨[], none⟩ "##".data = ⟨[], some ⟨"", [], 0, 0⟩⟩ := by
  have h := (c5_header_always_creates_subject ⟨[], none⟩ "##".data (by decide)).1
  rw [h]; decide

/-- Claim C6, counterexample: in the src/index.js variant an empty-name
header does not clear the current subject, so the task line after
"## A" followed by "##" is NOT discarded — it lands in subject A. -/
theorem c6_counterexample_line_after_empty_header_kept :
    parseFileContent "## A\n##\n- [x] t" = [⟨"A", [⟨"t", true⟩], 1, 1⟩] ∧
    parseFileContent "## A\n##\n- [x] t" ≠ [⟨"A", [], 0, 0⟩] :=
  ⟨by decide, by decide⟩

/-- Claim C6, amended: in the src/index.js variant a header line whose name
trims to empty leaves the parser state completely unchanged — it creates no
subject and does not clear the current subject.  Hence a non-empty line
following it is discarded exactly when no subject was already current, and
otherwise is appended to the still-current earlier subject. -/
theorem c6_amended_empty_header_is_noop (st : PState) (l : List Char)
    (hh : isHeaderLine (jsTrimL l) = true)
    (hn : jsTrimL ((jsTrimL l).drop 2) = []) :
    processLine st l = st :=
  processLine_header_empty st l hh hn

theorem c6_amended_empty_header_is_noop_witness :
    processLine ⟨[], some ⟨"A", [], 0, 0⟩⟩ "##".data =
      ⟨[], some ⟨"A", [], 0, 0⟩⟩ :=
  c6_amended_empty_header_is_noop ⟨[], some ⟨"A", [], 0, 0⟩⟩ "##".data
    (by decide) (by decide)

/-- Claim C7: a non-empty trimmed non-header line under a current subject
that does not match the checkbox task pattern is appended as a task whose
text is the entire trimmed line verbatim with completed = false. -/
theorem c7_nonmatching_line_verbatim (st : PState) (subj : Subject)
    (l : List Char)
    (hc : st.cur = some subj)
    (hh : isHeaderLine (jsTrimL l) = false)
    (hb : jsTrimL l ≠ [])
    (hm : taskRegexMatch (jsTrimL l) = none) :
    processLine st l =
      ⟨st.done, some (addTask subj ⟨String.mk (jsTrimL l), false⟩)⟩ := by
  rw [processLine_task st subj l hc hh hb, mkTask_of_none _ hm]

theorem c7_nonmatching_line_verbatim_witness :
    processLine ⟨[], some ⟨"S", [], 0, 0⟩⟩ "just plain text".data =
      ⟨[], some ⟨"S", [⟨"just plain text", false⟩], 0, 1⟩⟩ := by
  rw [c7_nonmatching_line_verbatim ⟨[], some ⟨"S", [], 0, 0⟩⟩ ⟨"S", [], 0, 0⟩
    "just plain text".data rfl (by decide) (by decide) (by decide)]
  decide

/-- Claim C8: a non-empty non-header line while no current subject exists
is discarded without error, and in particular
parse "stray line\n## A\n- [ ] t\n" yields exactly one Subject "A" with
exactly one task. -/
theorem c8_orphan_lines_discarded :
    (∀ (st : PState) (l : List Char), st.cur = none →
        isHeaderLine (jsTrimL l) = false → processLine st l = st) ∧
    parseFileContent "stray line\n## A\n- [ ] t\n" =
      [⟨"A", [⟨"t", false⟩], 0, 1⟩] :=
  ⟨fun st l hc hh => processLine_orphan st l hc hh, by decide⟩

theorem c8_orphan_lines_discarded_witness :
    processLine ⟨[], none⟩ "stray line".data = ⟨[], none⟩ :=
  c8_orphan_lines_discarded.1 ⟨[], none⟩ "stray line".data rfl (by decide)

/-- Claim C9: when no line of the input trims to a form beginning with
`##`, parse returns the empty sequence of Subjects. -/
theorem c9_no_headers_empty_result (content : String)
    (h : ∀ l ∈ splitLines content.data, isHeaderLine (jsTrimL l) = false) :
    parseFileContent content = [] := by
  have key : ∀ (lines : List (List Char)),
      (∀ l ∈ lines, isHeaderLine (jsTrimL l) = false) →
      lines.foldl processLine ⟨[], none⟩ = ⟨[], none⟩ := by
    intro lines
    induction lines with
    | nil => intro _; rfl
    | cons l ls ih =>
      intro hall
      rw [List.foldl_cons,
        processLine_orphan ⟨[], none⟩ l rfl (hall l (by simp))]
      exact ih fun x hx => hall x (by simp [hx])
  unfold parseFileContent
  rw [key _ h]
  rfl

theorem c9_no_headers_empty_result_witness :
    parseFileContent "alpha\n- [x] beta" = [] :=
  c9_no_headers_empty_result "alpha\n- [x] beta" (by decide)

/-- Claim C10: only the first two characters of a trimmed header line are
consumed as the marker, so a deeper heading such as "### Topic" still
creates a Subject, named "# Topic". -/
theorem c10_deeper_heading_is_header :
    (∀ (st : PState) (rest l : List Char),
        jsTrimL l = '#' :: '#' :: rest → jsTrimL rest ≠ [] →
        processLine st l =
          ⟨st.done ++ st.cur.toList,
           some ⟨String.mk (jsTrimL rest), [], 0, 0⟩⟩) ∧
    parseFileContent "### Topic" = [⟨"# Topic", [], 0, 0⟩] := by
  constructor
  · intro st rest l hl hn
    have hh : isHeaderLine (jsTrimL l) = true := by rw [hl]; rfl
    have hdrop : (jsTrimL l).drop 2 = rest := by simp [hl]
    have hmain := processLine_header st l hh (by rw [hdrop]; exact hn)
    rw [hmain, hdrop]
  · decide

theorem c10_deeper_heading_is_header_witness :
    processLine ⟨[], none⟩ "### Topic".data =
      ⟨[], some ⟨"# Topic", [], 0, 0⟩⟩ := by
  rw [c10_deeper_heading_is_header.1 ⟨[], none⟩ "# Topic".data
    "### Topic".data (by decide) (by decide)]
  decide

end AWP
